import Mathlib

/-!
Shallow embedding of the service lifecycle orchestrators of
nikhil-github/go-micro-patterns-prototype.

The repository repeats one piece of lifecycle logic across several pattern
variants:

* `App.Start` / `App.Stop` in `src/foundation/shared-foundation/app.go`
  (lines 129-167), `src/foundation/patterns/goforge/app/app.go`
  (lines 147-186) and `src/totex/foundation/app.go` (lines 108-139) are
  textually identical loops: start sequentially in registration order with
  fail-fast and a wrapped error `failed to start <name>: <cause>`; stop by
  first invoking the root cancel function and then calling every stop hook
  in reverse registration order, logging (and otherwise discarding) stop
  errors and returning nil.

* `Orchestrator.Start` / `Orchestrator.Stop` in
  `src/foundation/patterns/separated/lifecycle/orchestrator.go`
  (lines 37-82): start is the same fail-fast loop but returns the raw unit
  error unwrapped; stop invokes cancel, then runs every stop hook on its own
  goroutine, sends each non-nil error to a buffered channel, waits for all
  goroutines, and returns the first error received from the channel (nil if
  the channel is empty).

* `Orchestrator.Stop` in
  `src/foundation/patterns/simple/orchestrator/orchestrator.go`
  (lines 62-82): same concurrent fan-out, but errors are only logged and the
  method returns nothing.

A unit (Go interface `Service`: `Start(ctx) error`, `Stop(ctx) error`,
`Name() string`) is modelled by its name together with the outcome each hook
would return (`none` = success, `some msg` = the error message).  Hook
invocations and the root-context cancellation are recorded in an event trace.
The concurrent stop fan-out is modelled by an explicit linearization
`sched` : the order in which the spawned goroutines run and send to the
channel; theorems quantify over every `sched` that is a permutation of the
registered services.
-/

open List

/-- A manageable unit as seen by the orchestrators: its `Name()` and the
outcome of its `Start` and `Stop` hooks (`none` = success). -/
structure Service where
  name : String
  startErr : Option String
  stopErr : Option String
deriving DecidableEq, Repr

instance : Inhabited Service := ⟨⟨"", none, none⟩⟩

/-- Observable lifecycle events: a start-hook invocation, a stop-hook
invocation, and the invocation of the root context cancel function. -/
inductive Event where
  | startCall : Service → Event
  | stopCall : Service → Event
  | cancel : Event
deriving DecidableEq, Repr

/-- State of the `App` variants (`shared-foundation/app.go`,
`goforge/app/app.go`, `totex/foundation/app.go`): the registered service
slice and whether the root context has been cancelled.  The remaining Go
fields (config, logger, the typed service handles, the mutex) play no part in
the lifecycle claims. -/
structure App where
  services : List Service
  cancelled : Bool
deriving DecidableEq, Repr

/-- State of the `separated` lifecycle `Orchestrator` (and of the `simple`
variant, whose fields are identical): registered services plus the
root-context cancellation flag. -/
structure Orchestrator where
  services : List Service
  cancelled : Bool
deriving DecidableEq, Repr

/-- The start loop of `App.Start` (`shared-foundation/app.go` lines 135-141,
identical in `goforge/app/app.go` lines 152-158 and `totex/foundation/app.go`
lines 114-121): invoke each start hook in order; on the first error return
`failed to start <name>: <cause>`; on success continue.  Returns the trace of
start-hook invocations and the final result. -/
def appStartLoop : List Service → List Event × Option String
  | [] => ([], none)
  | u :: rest =>
    match u.startErr with
    | some e => ([Event.startCall u], some ("failed to start " ++ u.name ++ ": " ++ e))
    | none => (Event.startCall u :: (appStartLoop rest).1, (appStartLoop rest).2)

/-- The start loop of the separated `Orchestrator.Start`
(`separated/lifecycle/orchestrator.go` lines 42-47, identical in
`simple/orchestrator/orchestrator.go` lines 41-46 and in the `current`
`ServiceFactory.start`): same fail-fast iteration, but the raw unit error is
returned without wrapping. -/
def orchStartLoop : List Service → List Event × Option String
  | [] => ([], none)
  | u :: rest =>
    match u.startErr with
    | some _ => ([Event.startCall u], u.startErr)
    | none => (Event.startCall u :: (orchStartLoop rest).1, (orchStartLoop rest).2)

/-- The reverse-index stop loop of `App.Stop` (`shared-foundation/app.go`
lines 156-163: `for i := len(a.services) - 1; i >= 0; i--`), which calls every
stop hook, logging errors without acting on them. -/
def appStopLoop : List Service → List Event
  | [] => []
  | u :: rest => appStopLoop rest ++ [Event.stopCall u]

/-- `App.Start` (`shared-foundation/app.go` lines 129-145 and its goforge and
totex twins): runs the fail-fast start loop over the registered services; no
field of the receiver is written. -/
def App.start (a : App) : App × List Event × Option String :=
  (a, appStartLoop a.services)

/-- `App.Stop` (`shared-foundation/app.go` lines 148-167 and its goforge and
totex twins): invokes `a.cancel()` first, then the reverse-order stop loop,
and returns nil unconditionally. -/
def App.stop (a : App) : App × List Event × Option String :=
  ({ a with cancelled := true }, Event.cancel :: appStopLoop a.services, none)

/-- `Orchestrator.Add` (`separated/lifecycle/orchestrator.go` lines 31-35):
appends the service to the registered slice. -/
def Orchestrator.add (o : Orchestrator) (u : Service) : Orchestrator :=
  { o with services := o.services ++ [u] }

/-- `Orchestrator.Start` (`separated/lifecycle/orchestrator.go` lines 37-49):
the unwrapped fail-fast start loop; no field of the receiver is written. -/
def Orchestrator.start (o : Orchestrator) : Orchestrator × List Event × Option String :=
  (o, orchStartLoop o.services)

/-- The contents of the buffered `errors` channel in the separated
`Orchestrator.Stop`: each goroutine sends `s.Stop(ctx)` only when it is
non-nil, so in channel order `sched` the channel holds exactly the stop
errors of the failing services. -/
def collectErrs (sched : List Service) : List String :=
  sched.filterMap (fun u => u.stopErr)

/-- The `for err := range errors` loop of `Orchestrator.Stop` (lines 75-80):
returns the first received error (every channel element is non-nil), or nil
when the channel is empty. -/
def firstErr : List String → Option String
  | [] => none
  | e :: _ => some e

/-- `Orchestrator.Stop` (`separated/lifecycle/orchestrator.go` lines 51-82):
invoke `o.cancel()`, spawn one goroutine per registered service which runs
the stop hook and sends a non-nil error to the channel, wait for all of them,
then return the first channel error (nil if none).  `sched` is the
linearization of the goroutine executions: any permutation of
`o.services`. -/
def Orchestrator.stop (o : Orchestrator) (sched : List Service) :
    Orchestrator × List Event × Option String :=
  ({ o with cancelled := true },
   Event.cancel :: sched.map (fun u => Event.stopCall u),
   firstErr (collectErrs sched))

/-- `Orchestrator.Stop` of the `simple` variant
(`simple/orchestrator/orchestrator.go` lines 62-82): same cancel-then-fan-out
shape, but stop errors are only logged and the method returns nothing. -/
def simpleStop (o : Orchestrator) (sched : List Service) : Orchestrator × List Event :=
  ({ o with cancelled := true }, Event.cancel :: sched.map (fun u => Event.stopCall u))

/-- Number of start hooks the fail-fast loops invoke: every service up to and
including the first whose start hook errors. -/
def startedCount : List Service → Nat
  | [] => 0
  | u :: rest => if u.startErr = none then startedCount rest + 1 else 1

/- Helper lemmas about the loops. -/

theorem appStartLoop_trace (units : List Service) :
    (appStartLoop units).1 = (units.take (startedCount units)).map Event.startCall := by
  induction units with
  | nil => rfl
  | cons u t ih =>
    cases hu : u.startErr with
    | some e => simp [appStartLoop, startedCount, hu]
    | none => simp [appStartLoop, startedCount, hu, ih]

theorem orchStartLoop_trace (units : List Service) :
    (orchStartLoop units).1 = (units.take (startedCount units)).map Event.startCall := by
  induction units with
  | nil => rfl
  | cons u t ih =>
    cases hu : u.startErr with
    | some e => simp [orchStartLoop, startedCount, hu]
    | none => simp [orchStartLoop, startedCount, hu, ih]

theorem startedCount_pred_ok (units : List Service) :
    ∀ i, i + 1 < startedCount units → (units.getD i default).startErr = none := by
  induction units with
  | nil => intro i h; simp [startedCount] at h
  | cons u t ih =>
    intro i h
    cases hu : u.startErr with
    | some e =>
      rw [startedCount, if_neg (by simp [hu])] at h
      omega
    | none =>
      cases i with
      | zero => simpa using hu
      | succ j =>
        rw [startedCount, if_pos hu] at h
        exact ih j (by omega)

theorem appStartLoop_fail (pre : List Service) (u : Service) (post : List Service)
    (e : String) (hpre : ∀ v ∈ pre, v.startErr = none) (hu : u.startErr = some e) :
    appStartLoop (pre ++ u :: post)
      = ((pre ++ [u]).map Event.startCall,
         some ("failed to start " ++ u.name ++ ": " ++ e)) := by
  induction pre with
  | nil => simp [appStartLoop, hu]
  | cons v t ih =>
    have hv : v.startErr = none := hpre v (by simp)
    have ht := ih (fun w hw => hpre w (by simp [hw]))
    simp [appStartLoop, hv, ht]

theorem orchStartLoop_fail (pre : List Service) (u : Service) (post : List Service)
    (e : String) (hpre : ∀ v ∈ pre, v.startErr = none) (hu : u.startErr = some e) :
    orchStartLoop (pre ++ u :: post) = ((pre ++ [u]).map Event.startCall, some e) := by
  induction pre with
  | nil => simp [orchStartLoop, hu]
  | cons v t ih =>
    have hv : v.startErr = none := hpre v (by simp)
    have ht := ih (fun w hw => hpre w (by simp [hw]))
    simp [orchStartLoop, hv, ht]

theorem appStopLoop_eq (units : List Service) :
    appStopLoop units = units.reverse.map (fun u => Event.stopCall u) := by
  induction units with
  | nil => rfl
  | cons u t ih => simp [appStopLoop, ih]

theorem count_map_stopCall (l : List Service) (u : Service) :
    (l.map (fun v => Event.stopCall v)).count (Event.stopCall u) = l.count u := by
  induction l with
  | nil => rfl
  | cons v t ih => simp [List.count_cons, ih]

theorem appStartLoop_no_stop (units : List Service) (w : Service) :
    Event.stopCall w ∉ (appStartLoop units).1 := by
  induction units with
  | nil => simp [appStartLoop]
  | cons v t ih =>
    cases hv : v.startErr with
    | some e => simp [appStartLoop, hv]
    | none => simp [appStartLoop, hv]; exact ih

theorem orchStartLoop_no_stop (units : List Service) (w : Service) :
    Event.stopCall w ∉ (orchStartLoop units).1 := by
  induction units with
  | nil => simp [orchStartLoop]
  | cons v t ih =>
    cases hv : v.startErr with
    | some e => simp [orchStartLoop, hv]
    | none => simp [orchStartLoop, hv]; exact ih

theorem collectErrs_eq_nil (sched : List Service) :
    collectErrs sched = [] ↔ ∀ u ∈ sched, u.stopErr = none := by
  induction sched with
  | nil => simp [collectErrs]
  | cons v t ih =>
    cases hv : v.stopErr with
    | none =>
      simp only [collectErrs, List.filterMap_cons, hv] at ih ⊢
      rw [ih]
      simp [hv]
    | some e => simp [collectErrs, List.filterMap_cons, hv]

theorem mem_collectErrs (sched : List Service) (e : String) :
    e ∈ collectErrs sched ↔ ∃ u ∈ sched, u.stopErr = some e := by
  simp [collectErrs, List.mem_filterMap]

theorem firstErr_eq_none (l : List String) : firstErr l = none ↔ l = [] := by
  cases l <;> simp [firstErr]

theorem firstErr_mem (l : List String) (e : String) (h : firstErr l = some e) : e ∈ l := by
  cases l with
  | nil => simp [firstErr] at h
  | cons x t =>
    simp [firstErr] at h
    simp [h]

/- Claim theorems. -/

/-- C1: for every sequence of registered services and every outcome of their
start hooks, `App.Start` and the separated `Orchestrator.Start` invoke the
start hooks sequentially in exactly registration order (the emitted trace is
the image of a prefix of the registration list), and the hook of service
`i+1` is invoked only if the hook of service `i` returned success. -/
theorem start_order_fail_fast (units : List Service) :
    (appStartLoop units).1 = (units.take (startedCount units)).map Event.startCall
    ∧ (orchStartLoop units).1 = (units.take (startedCount units)).map Event.startCall
    ∧ ∀ i, i + 1 < startedCount units → (units.getD i default).startErr = none :=
  ⟨appStartLoop_trace units, orchStartLoop_trace units, startedCount_pred_ok units⟩

/-- Witness for C1 at a concrete registration list, instantiating the inner
bound at the first service. -/
theorem start_order_fail_fast_witness :
    (⟨"A", none, none⟩ : Service).startErr = none :=
  (start_order_fail_fast
      [⟨"A", none, none⟩, ⟨"B", some "boom", none⟩]).2.2 0 (by decide)

/-- C2 counterexample: for the separated `Orchestrator.Start`
(`separated/lifecycle/orchestrator.go` lines 42-47), when the sole registered
service `B` fails with cause `port in use`, the returned error is the raw
cause, not the claimed form `failed to start B: port in use`, and it does not
identify the unit by name. -/
theorem start_error_form_cex :
    (orchStartLoop [⟨"B", some "port in use", none⟩]).2 = some "port in use"
    ∧ ("port in use" : String) ≠ "failed to start " ++ "B" ++ ": " ++ "port in use" := by
  constructor
  · rfl
  · decide

/-- C2 amended: if service `k` (the one after prefix `pre`, all of which start
successfully) is the first whose start hook fails, then no start hook after it
is invoked, `App.Start` returns `failed to start <name>: <cause>`, and the
separated `Orchestrator.Start` returns the raw cause unchanged (without the
unit name). -/
theorem start_fail_fast_attribution (pre : List Service) (u : Service)
    (post : List Service) (e : String)
    (hpre : ∀ v ∈ pre, v.startErr = none) (hu : u.startErr = some e) :
    (appStartLoop (pre ++ u :: post)).2
        = some ("failed to start " ++ u.name ++ ": " ++ e)
    ∧ (orchStartLoop (pre ++ u :: post)).2 = some e
    ∧ (appStartLoop (pre ++ u :: post)).1 = (pre ++ [u]).map Event.startCall
    ∧ (orchStartLoop (pre ++ u :: post)).1 = (pre ++ [u]).map Event.startCall := by
  have ha := appStartLoop_fail pre u post e hpre hu
  have ho := orchStartLoop_fail pre u post e hpre hu
  exact ⟨by rw [ha], by rw [ho], by rw [ha], by rw [ho]⟩

/-- Witness for C2 amended: A succeeds, B fails with `port in use`, C is never
started. -/
theorem start_fail_fast_attribution_witness :
    (appStartLoop [⟨"A", none, none⟩, ⟨"B", some "port in use", none⟩,
        ⟨"C", none, none⟩]).2 = some "failed to start B: port in use" :=
  (start_fail_fast_attribution [⟨"A", none, none⟩] ⟨"B", some "port in use", none⟩
      [⟨"C", none, none⟩] "port in use" (by decide) rfl).1

/-- C3 counterexample: `App.Stop` (`shared-foundation/app.go` lines 148-167)
returns nil even though the sole registered service fails to stop with
`flush failed`; no aggregate error is returned. -/
theorem stop_aggregate_cex :
    (⟨"B", none, some "flush failed"⟩ : Service).stopErr.isSome = true
    ∧ (App.stop ⟨[⟨"B", none, some "flush failed"⟩], false⟩).2.2 = none := by
  constructor
  · rfl
  · rfl

/-- C3 amended: stop attempts every service, but no variant aggregates the
failures: `App.Stop` always returns success, discarding per-unit stop errors,
while the separated `Orchestrator.Stop` returns success iff no service failed
and otherwise returns the raw cause of one failing service (the first in
channel order), without the unit name and without the other causes. -/
theorem stop_error_reporting (a : App) (o : Orchestrator) (sched : List Service)
    (hperm : sched.Perm o.services) :
    (App.stop a).2.2 = none
    ∧ ((Orchestrator.stop o sched).2.2 = none ↔ ∀ u ∈ o.services, u.stopErr = none)
    ∧ ∀ e, (Orchestrator.stop o sched).2.2 = some e →
        ∃ u ∈ o.services, u.stopErr = some e := by
  refine ⟨rfl, ?_, ?_⟩
  · show firstErr (collectErrs sched) = none ↔ _
    rw [firstErr_eq_none, collectErrs_eq_nil]
    constructor
    · intro h u hu
      exact h u (hperm.mem_iff.2 hu)
    · intro h u hu
      exact h u (hperm.mem_iff.1 hu)
  · intro e he
    have : e ∈ collectErrs sched := firstErr_mem _ e he
    rcases (mem_collectErrs sched e).1 this with ⟨u, hu, hue⟩
    exact ⟨u, hperm.mem_iff.1 hu, hue⟩

/-- Witness for C3 amended at a concrete state with one failing service and
the identity schedule. -/
theorem stop_error_reporting_witness :
    (App.stop ⟨[⟨"B", none, some "flush failed"⟩], false⟩).2.2 = none :=
  (stop_error_reporting ⟨[⟨"B", none, some "flush failed"⟩], false⟩
      ⟨[⟨"B", none, some "flush failed"⟩], false⟩
      [⟨"B", none, some "flush failed"⟩] (List.Perm.refl _)).1

/-- C4: for every registered sequence and every linearization of the
concurrent fan-out, a single stop call invokes the stop hook of every
registered service exactly once (occurrence for occurrence), in `App.Stop`, the
separated `Orchestrator.Stop`, and the simple variant, regardless of which
stop hooks fail. -/
theorem stop_exactly_once (a : App) (o : Orchestrator) (sched : List Service)
    (hperm : sched.Perm o.services) (u : Service) :
    (App.stop a).2.1.count (Event.stopCall u) = a.services.count u
    ∧ (Orchestrator.stop o sched).2.1.count (Event.stopCall u) = o.services.count u
    ∧ (simpleStop o sched).2.count (Event.stopCall u) = o.services.count u := by
  have hs : (sched.map (fun v => Event.stopCall v)).count (Event.stopCall u)
      = o.services.count u := by
    rw [count_map_stopCall, hperm.count_eq]
  refine ⟨?_, ?_, ?_⟩
  · show (Event.cancel :: appStopLoop a.services).count (Event.stopCall u) = _
    rw [List.count_cons_of_ne (by simp), appStopLoop_eq, count_map_stopCall,
      (a.services.reverse_perm).count_eq]
  · show (Event.cancel :: sched.map (fun v => Event.stopCall v)).count
        (Event.stopCall u) = _
    rw [List.count_cons_of_ne (by simp), hs]
  · show (Event.cancel :: sched.map (fun v => Event.stopCall v)).count
        (Event.stopCall u) = _
    rw [List.count_cons_of_ne (by simp), hs]

/-- Witness for C4 with services `[A, B]` and schedule `[B, A]`. -/
theorem stop_exactly_once_witness :
    (App.stop ⟨[⟨"A", none, none⟩, ⟨"B", none, none⟩], false⟩).2.1.count
        (Event.stopCall ⟨"A", none, none⟩)
      = [⟨"A", none, none⟩, ⟨"B", none, none⟩].count (⟨"A", none, none⟩ : Service) :=
  (stop_exactly_once ⟨[⟨"A", none, none⟩, ⟨"B", none, none⟩], false⟩
      ⟨[⟨"A", none, none⟩, ⟨"B", none, none⟩], false⟩
      [⟨"B", none, none⟩, ⟨"A", none, none⟩]
      (List.Perm.swap _ _ _) ⟨"A", none, none⟩).1

/-- C5 counterexample: the separated `Orchestrator.Stop` tracks no phase, so
a second stop call after the first has completed invokes the stop hook of the
sole registered service `A` again, contradicting the claimed no-op. -/
theorem stop_idempotent_cex :
    Event.stopCall ⟨"A", none, none⟩ ∈
      (Orchestrator.stop
        (Orchestrator.stop ⟨[⟨"A", none, none⟩], false⟩ [⟨"A", none, none⟩]).1
        [⟨"A", none, none⟩]).2.1 := by
  decide

/-- C5 amended: no variant records a Stopped phase, so a second call to stop
is not a no-op: it behaves exactly like the first call, re-invoking every
stop hook of every registered service exactly once more (the separated orchestrator
under the same fan-out schedule, and `App.Stop`), and returning the same
result as the first call. -/
theorem second_stop_reinvokes_hooks (o : Orchestrator) (sched : List Service)
    (a : App) (hperm : sched.Perm o.services) (u : Service) :
    Orchestrator.stop (Orchestrator.stop o sched).1 sched = Orchestrator.stop o sched
    ∧ (Orchestrator.stop (Orchestrator.stop o sched).1 sched).2.1.count
        (Event.stopCall u) = o.services.count u
    ∧ App.stop (App.stop a).1 = App.stop a := by
  refine ⟨rfl, ?_, rfl⟩
  show (Event.cancel :: sched.map (fun v => Event.stopCall v)).count
      (Event.stopCall u) = _
  rw [List.count_cons_of_ne (by simp), count_map_stopCall, hperm.count_eq]

/-- Witness for C5 amended: one registered service, identity schedule. -/
theorem second_stop_reinvokes_hooks_witness :
    Orchestrator.stop
        (Orchestrator.stop ⟨[⟨"A", none, none⟩], false⟩ [⟨"A", none, none⟩]).1
        [⟨"A", none, none⟩]
      = Orchestrator.stop ⟨[⟨"A", none, none⟩], false⟩ [⟨"A", none, none⟩] :=
  (second_stop_reinvokes_hooks ⟨[⟨"A", none, none⟩], false⟩ [⟨"A", none, none⟩]
      ⟨[], false⟩ (List.Perm.refl _) ⟨"A", none, none⟩).1

/-- C6: in every stop execution of every variant, the root cancel invocation
is the first event of the trace, and any stop-hook invocation at position `i`
is preceded by the cancel event (cancel appears among the first `i` events).
The shared context is therefore already cancelled when the first stop hook
runs. -/
theorem cancel_precedes_stop_hooks (a : App) (o : Orchestrator)
    (sched : List Service) (i : Nat) (u : Service) :
    ((App.stop a).2.1.getD i Event.cancel = Event.stopCall u
        → Event.cancel ∈ (App.stop a).2.1.take i)
    ∧ ((Orchestrator.stop o sched).2.1.getD i Event.cancel = Event.stopCall u
        → Event.cancel ∈ (Orchestrator.stop o sched).2.1.take i)
    ∧ ((simpleStop o sched).2.getD i Event.cancel = Event.stopCall u
        → Event.cancel ∈ (simpleStop o sched).2.take i)
    ∧ (App.stop a).2.1.head? = some Event.cancel
    ∧ (Orchestrator.stop o sched).2.1.head? = some Event.cancel
    ∧ (simpleStop o sched).2.head? = some Event.cancel := by
  refine ⟨?_, ?_, ?_, rfl, rfl, rfl⟩ <;>
  · intro h
    match i with
    | 0 => simp [App.stop, Orchestrator.stop, simpleStop, List.getD] at h
    | j + 1 =>
      show Event.cancel ∈ (Event.cancel :: _).take (j + 1)
      simp [List.take]

/-- Witness for C6: with one registered service the stop event sits at index
1 and the cancel event is among the first events. -/
theorem cancel_precedes_stop_hooks_witness :
    Event.cancel ∈ (App.stop ⟨[⟨"A", none, none⟩], false⟩).2.1.take 1 :=
  (cancel_precedes_stop_hooks ⟨[⟨"A", none, none⟩], false⟩ ⟨[], false⟩ [] 1
      ⟨"A", none, none⟩).1 (by decide)

/-- C7 counterexample: `App.Start` checks no phase, so after a successful
start a second start call returns success (not an InvalidTransition error)
and re-invokes the start hook of the registered service `A`. -/
theorem start_invalid_transition_cex :
    (App.start (App.start ⟨[⟨"A", none, none⟩], false⟩).1).2.2 = none
    ∧ Event.startCall ⟨"A", none, none⟩ ∈
        (App.start (App.start ⟨[⟨"A", none, none⟩], false⟩).1).2.1 := by
  constructor
  · rfl
  · decide

/-- C7 amended: neither `App.Start` nor the separated `Orchestrator.Start`
tracks a phase: a start call after a previous start behaves exactly like the
first call, re-running every start hook in registration order; no
InvalidTransition error exists in the code. -/
theorem second_start_reruns_hooks (a : App) (o : Orchestrator) :
    App.start (App.start a).1 = App.start a
    ∧ Orchestrator.start (Orchestrator.start o).1 = Orchestrator.start o :=
  ⟨rfl, rfl⟩

/-- C8: when service `k` (the one after the successfully started prefix
`pre`) is the first whose start hook fails, start returns an error and its
trace contains no stop-hook invocation at all: the already-started services
`pre` are not rolled back, in `App.Start` (shared-foundation and goforge) and
in the separated `Orchestrator.Start` alike. -/
theorem no_rollback_on_failed_start (pre : List Service) (u : Service)
    (post : List Service) (e : String)
    (hpre : ∀ v ∈ pre, v.startErr = none) (hu : u.startErr = some e) :
    (appStartLoop (pre ++ u :: post)).2.isSome = true
    ∧ (∀ w, Event.stopCall w ∉ (appStartLoop (pre ++ u :: post)).1)
    ∧ (∀ w, Event.stopCall w ∉ (orchStartLoop (pre ++ u :: post)).1) := by
  refine ⟨?_, fun w => appStartLoop_no_stop _ w, fun w => orchStartLoop_no_stop _ w⟩
  rw [(appStartLoop_fail pre u post e hpre hu :)]
  rfl

/-- Witness for C8: A started, B fails, C pending; no stop event occurs. -/
theorem no_rollback_on_failed_start_witness :
    Event.stopCall ⟨"A", none, none⟩ ∉
      (appStartLoop [⟨"A", none, none⟩, ⟨"B", some "boom", none⟩,
          ⟨"C", none, none⟩]).1 :=
  (no_rollback_on_failed_start [⟨"A", none, none⟩] ⟨"B", some "boom", none⟩
      [⟨"C", none, none⟩] "boom" (by decide) rfl).2.1 ⟨"A", none, none⟩

/-- C9: in the App variants (shared-foundation, totex, goforge), stop invokes
the stop hooks sequentially in exactly reverse registration order — the trace
after the cancel event is the reversed registration list — and every
registered service is attempted exactly once regardless of which stop hooks
return errors (the trace does not depend on the stop outcomes). -/
theorem app_stop_reverse_order (a : App) (u : Service) :
    (App.stop a).2.1
      = Event.cancel :: a.services.reverse.map (fun v => Event.stopCall v)
    ∧ (App.stop a).2.1.count (Event.stopCall u) = a.services.count u := by
  constructor
  · show Event.cancel :: appStopLoop a.services = _
    rw [appStopLoop_eq]
  · show (Event.cancel :: appStopLoop a.services).count (Event.stopCall u) = _
    rw [List.count_cons_of_ne (by simp), appStopLoop_eq, count_map_stopCall,
      (a.services.reverse_perm).count_eq]

/-- C10: start and stop leave the registered service sequence unchanged in
every variant (App start/stop, separated orchestrator start/stop, simple
stop), and only `Orchestrator.Add` changes it, by appending the new service
at the end. -/
theorem lifecycle_preserves_registration (a : App) (o : Orchestrator)
    (sched : List Service) (u : Service) :
    (App.start a).1.services = a.services
    ∧ (App.stop a).1.services = a.services
    ∧ (Orchestrator.start o).1.services = o.services
    ∧ (Orchestrator.stop o sched).1.services = o.services
    ∧ (simpleStop o sched).1.services = o.services
    ∧ (Orchestrator.add o u).services = o.services ++ [u] :=
  ⟨rfl, rfl, rfl, rfl, rfl, rfl⟩
